import Mathlib

/-!
Shallow embedding of the data-normalization layer of `Multi-data-dashboard.py`:
the crypto, geocoding, weather and mock-stock pipelines and the dashboard
aggregation/dispatch logic. Network responses are passed in as explicit data
(`Option` of a response structure, `none` modelling a raised transport error),
floating-point prices are modelled as rationals, and pandas timestamps as an
explicit civil-calendar structure.
-/

namespace Dashboard

/-- A civil calendar instant (what `pd.to_datetime(ms, unit='ms')` produces):
year, month, day, hour, minute, second and leftover milliseconds, UTC. -/
structure Instant where
  year : ℤ
  month : ℕ
  day : ℕ
  hour : ℕ
  minute : ℕ
  second : ℕ
  millis : ℕ
deriving DecidableEq, Repr

/-- Days since 1970-01-01 to civil (year, month, day), the standard
era-based conversion used by calendar libraries (floor division throughout). -/
def civilFromDays (z0 : ℤ) : ℤ × ℕ × ℕ :=
  let z := z0 + 719468
  let era := Int.fdiv z 146097
  let doe := (z - era * 146097).toNat
  let yoe := (doe - doe / 1460 + doe / 36524 - doe / 146096) / 365
  let y := (yoe : ℤ) + era * 400
  let doy := doe - (365 * yoe + yoe / 4 - yoe / 100)
  let mp := (5 * doy + 2) / 153
  let d := doy - (153 * mp + 2) / 5 + 1
  let m := if mp < 10 then mp + 3 else mp - 9
  (if m ≤ 2 then y + 1 else y, m, d)

/-- `pd.to_datetime(ms, unit='ms')`: epoch milliseconds to a calendar instant. -/
def msToInstant (ms : ℤ) : Instant :=
  let s := Int.fdiv ms 1000
  let msRem := (ms - 1000 * s).toNat
  let days := Int.fdiv s 86400
  let sod := (s - 86400 * days).toNat
  let ymd := civilFromDays days
  ⟨ymd.1, ymd.2.1, ymd.2.2, sod / 3600, (sod % 3600) / 60, sod % 60, msRem⟩

/-- Python `str.capitalize()`: first character upper-cased, the rest lower-cased. -/
def pyCapitalize (s : String) : String :=
  match s.data with
  | [] => ""
  | c :: cs => String.mk (c.toUpper :: cs.map Char.toLower)

/-! ## Crypto pipeline (`fetch_crypto_data`) -/

/-- The market-chart endpoint's response: an HTTP status code and the
`'prices'` payload, a list of `[epoch_ms, price]` pairs. -/
structure CryptoResponse where
  status_code : ℕ
  prices : List (ℤ × ℚ)
deriving DecidableEq, Repr

/-- One row of the crypto table: converted timestamp, price, capitalized coin. -/
structure CryptoRow where
  timestamp : Instant
  price : ℚ
  coin : String
deriving DecidableEq, Repr

/-- The rows one coin contributes: empty on a raised transport error
(`none`, the `except` branch) or a non-200 status; otherwise one row per
`[epoch_ms, price]` pair, timestamp converted from milliseconds and the
row tagged with the capitalized coin name. -/
def cryptoRowsFor (resp : String → Option CryptoResponse) (coin : String) :
    List CryptoRow :=
  match resp coin with
  | none => []
  | some r =>
      if r.status_code = 200 then
        r.prices.map (fun p => ⟨msToInstant p.1, p.2, pyCapitalize coin⟩)
      else []

/-- `fetch_crypto_data`: loop over the coins, appending each coin's
dataframe; `pd.concat` of the collected frames (row-wise, an empty table
when nothing was collected). -/
def fetch_crypto_data (coins : List String)
    (resp : String → Option CryptoResponse) : List CryptoRow :=
  coins.foldl (fun acc coin => acc ++ cryptoRowsFor resp coin) []

/-! ## Geocoding (`get_coordinates`) -/

/-- One entry of the geocoding endpoint's `results` array. -/
structure GeoResult where
  latitude : ℚ
  longitude : ℚ
  name : String
deriving DecidableEq, Repr

/-- The geocoding response: status code and the optional `results` array
(`none` models a JSON object with no `results` key). -/
structure GeoResponse where
  status_code : ℕ
  results : Option (List GeoResult)
deriving DecidableEq, Repr

/-- `get_coordinates`: first result's (latitude, longitude, name) when the
status is 200 and `results` is present and non-empty; the fixed New York
fallback on transport error (`none`) or any other shape. -/
def get_coordinates (resp : Option GeoResponse) : ℚ × ℚ × String :=
  match resp with
  | none => (40.7128, -74.0060, "New York")
  | some r =>
      if r.status_code = 200 then
        match r.results with
        | some (x :: _) => (x.latitude, x.longitude, x.name)
        | _ => (40.7128, -74.0060, "New York")
      else (40.7128, -74.0060, "New York")

/-! ## Weather pipeline (`fetch_weather_data`) -/

/-- The forecast response's `hourly` block: status code and four parallel
arrays. Timestamps are kept as their upstream tokens; `pd.to_datetime`
parses them injectively, so the zip structure is unchanged. -/
structure WeatherResponse where
  status_code : ℕ
  time : List String
  temperature_2m : List ℚ
  relative_humidity_2m : List ℚ
  precipitation : List ℚ
deriving DecidableEq, Repr

/-- One row of the weather table. -/
structure WeatherRow where
  time : String
  temperature : ℚ
  humidity : ℚ
  precipitation : ℚ
  location : String
deriving DecidableEq, Repr

/-- Zip the four parallel hourly arrays into rows tagged with `loc`. -/
def weatherRows (r : WeatherResponse) (loc : String) : List WeatherRow :=
  (r.time.zip (r.temperature_2m.zip (r.relative_humidity_2m.zip r.precipitation))).map
    (fun p => ⟨p.1, p.2.1, p.2.2.1, p.2.2.2, loc⟩)

/-- `fetch_weather_data`: resolve the location via `get_coordinates` first;
on a 200 response build the dataframe from the four parallel arrays.
`pd.DataFrame` raises `ValueError` when the arrays' lengths differ; that
exception is caught by the surrounding `except`, so mismatched lengths
yield the empty table, as do a transport error (`none`) or a non-200 status. -/
def fetch_weather_data (geo : Option GeoResponse)
    (wresp : Option WeatherResponse) : List WeatherRow :=
  let resolved := (get_coordinates geo).2.2
  match wresp with
  | none => []
  | some r =>
      if r.status_code = 200 then
        if r.temperature_2m.length = r.time.length ∧
            r.relative_humidity_2m.length = r.time.length ∧
            r.precipitation.length = r.time.length then
          weatherRows r resolved
        else []
      else []

/-! ## Mock stocks (`generate_mock_stock_data`) -/

/-- `base_prices.get(symbol, 100)`. -/
def basePrice (symbol : String) : ℚ :=
  if symbol = "AAPL" then 180
  else if symbol = "GOOGL" then 140
  else if symbol = "MSFT" then 380
  else 100

/-- Running prefix sums with accumulator, the recursion behind `np.cumsum`. -/
def cumsumAux (acc : ℚ) : List ℚ → List ℚ
  | [] => []
  | x :: xs => (acc + x) :: cumsumAux (acc + x) xs

/-- `np.cumsum`: element `i` is the sum of the first `i + 1` inputs. -/
def cumsum (xs : List ℚ) : List ℚ := cumsumAux 0 xs

/-- One row of the mock stock table; the date is an epoch-millisecond stamp. -/
structure StockRow where
  date : ℤ
  price : ℚ
  symbol : String
deriving DecidableEq, Repr

/-- Milliseconds in one day, the step of `pd.date_range(freq='D')`. -/
def dayMs : ℤ := 86400000

/-- One symbol's rows. `rng` is the global normal-draw stream of
`np.random.randn`, of which this symbol consumes indices
`off, off + 1, …, off + days - 1`; dates are `days` consecutive days ending
at `now`, and prices are the base price plus the cumulative sum of the
draws scaled by 5. -/
def stockRowsFor (rng : ℕ → ℚ) (off : ℕ) (symbol : String) (now : ℤ)
    (days : ℕ) : List StockRow :=
  let dates := (List.range days).map (fun i => now - ((days - 1 - i : ℕ) : ℤ) * dayMs)
  let steps := (List.range days).map (fun j => rng (off + j) * 5)
  let prices := (cumsum steps).map (fun c => basePrice symbol + c)
  (dates.zip prices).map (fun p => ⟨p.1, p.2, symbol⟩)

/-- Loop over the symbols; each iteration's `np.random.randn(days)` consumes
the next `days` draws of the global stream. -/
def genStocksAux (rng : ℕ → ℚ) (now : ℤ) (days : ℕ) :
    ℕ → List String → List StockRow
  | _, [] => []
  | off, s :: rest =>
      stockRowsFor rng off s now days ++ genStocksAux rng now days (off + days) rest

/-- `generate_mock_stock_data`: per-symbol random-walk tables, concatenated
in symbol order. -/
def generate_mock_stock_data (symbols : List String) (days : ℕ) (now : ℤ)
    (rng : ℕ → ℚ) : List StockRow :=
  genStocksAux rng now days 0 symbols

/-! ## Aggregation (`update_crypto_dashboard`) and dispatch (`update_dashboard`) -/

/-- The last two elements of a list, when it has at least two. -/
def lastTwo : List ℚ → Option (ℚ × ℚ)
  | [] => none
  | [_] => none
  | [a, b] => some (a, b)
  | _ :: b :: c :: rest => lastTwo (b :: c :: rest)

/-- `series.pct_change().iloc[-1] * 100`: the last pairwise step's percent
change; `none` models the NaN / error of a series with fewer than two points. -/
def lastStepPctChange (xs : List ℚ) : Option ℚ :=
  (lastTwo xs).map (fun p => (p.2 - p.1) / p.1 * 100)

/-- `(x.iloc[-1] - x.iloc[0]) / x.iloc[0] * 100`: whole-range percent
change; `none` models the indexing error on an empty series. -/
def wholeRangePctChange : List ℚ → Option ℚ
  | [] => none
  | x :: xs => some (((x :: xs).getLast (List.cons_ne_nil x xs) - x) / x * 100)

/-- The price series of one coin label, in table order
(`df[df['coin'] == coin]['price']`). -/
def seriesPrices (df : List CryptoRow) (c : String) : List ℚ :=
  (df.filter (fun row => row.coin == c)).map CryptoRow.price

/-- The statistics the crypto dashboard derives for one coin label:
latest price (`groupby('coin')['price'].last()`), last-step percent change
(the stat card) and whole-range percent change (the bar chart). -/
structure CryptoStats where
  coin : String
  latest : ℚ
  lastStep : Option ℚ
  wholeRange : Option ℚ
deriving DecidableEq, Repr

/-- Per-label statistics over the crypto table, one entry per distinct coin. -/
def cryptoStatsOf (df : List CryptoRow) : List CryptoStats :=
  ((df.map CryptoRow.coin).dedup).map
    (fun c =>
      ⟨c, (seriesPrices df c).getLastD 0,
        lastStepPctChange (seriesPrices df c),
        wholeRangePctChange (seriesPrices df c)⟩)

/-- The crypto dashboard's outcome: the "no data" placeholder
(`create_empty_dashboard`) or the per-coin statistics. -/
inductive CryptoDash where
  | noData : String → CryptoDash
  | stats : List CryptoStats → CryptoDash
deriving DecidableEq, Repr

/-- `create_empty_dashboard(message)`: the placeholder result. -/
def create_empty_dashboard (message : String) : CryptoDash :=
  CryptoDash.noData message

/-- `update_crypto_dashboard`: fetch, then branch on `df.empty` — the
placeholder path computes no statistics at all. -/
def update_crypto_dashboard (coins : List String)
    (resp : String → Option CryptoResponse) : CryptoDash :=
  let df := fetch_crypto_data coins resp
  if df.isEmpty then create_empty_dashboard "No crypto data available"
  else CryptoDash.stats (cryptoStatsOf df)

/-- The three normalizer pipelines the aggregator can dispatch to. -/
inductive Pipeline where
  | crypto
  | weather
  | stocks
deriving DecidableEq, Repr

/-- The dispatch decision of `update_dashboard`: `'crypto'` and `'weather'`
are matched by exact string equality; everything else falls into the
`else` branch, the stocks pipeline. -/
def update_dashboard (data_type : String) : Pipeline :=
  if data_type = "crypto" then Pipeline.crypto
  else if data_type = "weather" then Pipeline.weather
  else Pipeline.stocks

/-! ## Helper lemmas -/

lemma foldl_append_eq_flatten {α β : Type} (f : α → List β) :
    ∀ (l : List α) (acc : List β),
      l.foldl (fun a c => a ++ f c) acc = acc ++ (l.map f).flatten := by
  intro l
  induction l with
  | nil => intro acc; simp
  | cons x xs ih => intro acc; simp [ih, List.append_assoc]

lemma fetch_crypto_data_eq_flatten (coins : List String)
    (resp : String → Option CryptoResponse) :
    fetch_crypto_data coins resp = (coins.map (cryptoRowsFor resp)).flatten := by
  simpa using foldl_append_eq_flatten (cryptoRowsFor resp) coins []

lemma cryptoRowsFor_of_failure (resp : String → Option CryptoResponse)
    (coin : String)
    (hfail : resp coin = none ∨ ∀ r, resp coin = some r → r.status_code ≠ 200) :
    cryptoRowsFor resp coin = [] := by
  rcases hfail with h | h
  · simp [cryptoRowsFor, h]
  · cases hr : resp coin with
    | none => simp [cryptoRowsFor, hr]
    | some r => simp [cryptoRowsFor, hr, h r hr]

/-! ## Claim theorems: crypto pipeline -/

/-- C1: for every successful per-coin response whose payload is a list of
`[epoch_ms, price]` pairs, `fetch_crypto_data` emits exactly one row per
pair (row count equals the upstream array length), converts each
epoch-milliseconds value to the corresponding calendar instant (witnessed
by epoch `1700000000000` mapping to 2023-11-14 22:13:20 UTC), tags every
row with the capitalized coin name, and the overall output is the
concatenation of all coins' rows in coin-iteration order. -/
theorem fetch_crypto_rows_spec (coins : List String)
    (resp : String → Option CryptoResponse) :
    fetch_crypto_data coins resp = (coins.map (cryptoRowsFor resp)).flatten ∧
    (∀ coin r, resp coin = some r → r.status_code = 200 →
      cryptoRowsFor resp coin =
        r.prices.map (fun p => ⟨msToInstant p.1, p.2, pyCapitalize coin⟩) ∧
      (cryptoRowsFor resp coin).length = r.prices.length) ∧
    msToInstant 1700000000000 = ⟨2023, 11, 14, 22, 13, 20, 0⟩ := by
  refine ⟨fetch_crypto_data_eq_flatten coins resp, ?_, by decide⟩
  intro coin r hr hs
  constructor
  · simp [cryptoRowsFor, hr, hs]
  · simp [cryptoRowsFor, hr, hs]

/-- The network behaviour used by the witnesses of C1 and C2: the bitcoin
request raises a transport error, the ethereum request succeeds with two
price pairs. -/
def respW : String → Option CryptoResponse := fun s =>
  if s = "ethereum" then some ⟨200, [(1700000000000, 2000), (1700003600000, 2020)]⟩
  else none

/-- Witness for C1 at a concrete response. -/
theorem fetch_crypto_rows_spec_witness :
    cryptoRowsFor respW "ethereum" =
      [⟨msToInstant 1700000000000, 2000, pyCapitalize "ethereum"⟩,
       ⟨msToInstant 1700003600000, 2020, pyCapitalize "ethereum"⟩] ∧
    (cryptoRowsFor respW "ethereum").length = 2 := by
  have h := (fetch_crypto_rows_spec ["ethereum"] respW).2.1 "ethereum"
    ⟨200, [(1700000000000, 2000), (1700003600000, 2020)]⟩ rfl rfl
  exact ⟨h.1, h.2⟩

/-- C2: a coin whose request fails (transport error or non-success status)
contributes zero rows — the function is total, no exception escapes — and
every coin's rows, in particular those of coins whose request succeeded,
still appear inside the output. -/
theorem fetch_crypto_partial_failure (coins : List String)
    (resp : String → Option CryptoResponse) (coin : String)
    (hfail : resp coin = none ∨ ∀ r, resp coin = some r → r.status_code ≠ 200) :
    cryptoRowsFor resp coin = [] ∧
    ∀ c ∈ coins, (cryptoRowsFor resp c).Sublist (fetch_crypto_data coins resp) := by
  refine ⟨cryptoRowsFor_of_failure resp coin hfail, ?_⟩
  intro c hc
  rw [fetch_crypto_data_eq_flatten]
  exact List.sublist_flatten_of_mem (List.mem_map_of_mem (cryptoRowsFor resp) hc)

/-- Witness for C2: bitcoin fails, ethereum's two rows survive. -/
theorem fetch_crypto_partial_failure_witness :
    cryptoRowsFor respW "bitcoin" = [] ∧
    (cryptoRowsFor respW "ethereum").Sublist
      (fetch_crypto_data ["bitcoin", "ethereum"] respW) := by
  have h := fetch_crypto_partial_failure ["bitcoin", "ethereum"] respW "bitcoin"
    (Or.inl rfl)
  exact ⟨h.1, h.2 "ethereum" (by simp)⟩

/-! ## Claim theorems: geocoding -/

/-- C3: `get_coordinates` returns the first result's
(latitude, longitude, name) whenever the lookup succeeds with a non-empty
`results` array, and returns exactly `(40.7128, -74.0060, "New York")` in
every other case — transport error, non-success status, missing or empty
`results` — never propagating a failure (the function is total). -/
theorem get_coordinates_spec (resp : Option GeoResponse) :
    (∀ r x rest, resp = some r → r.status_code = 200 →
      r.results = some (x :: rest) →
      get_coordinates resp = (x.latitude, x.longitude, x.name)) ∧
    ((∀ r, resp = some r → r.status_code = 200 →
        ∀ x rest, r.results ≠ some (x :: rest)) →
      get_coordinates resp = (40.7128, -74.0060, "New York")) := by
  constructor
  · intro r x rest hr hs hres
    subst hr
    simp [get_coordinates, hs, hres]
  · intro h
    cases hr : resp with
    | none => simp [get_coordinates]
    | some r =>
        by_cases hs : r.status_code = 200
        · cases hres : r.results with
          | none => simp [get_coordinates, hs, hres]
          | some l =>
              cases l with
              | nil => simp [get_coordinates, hs, hres]
              | cons x rest => exact absurd hres (h r hr hs x rest)
        · simp [get_coordinates, hs]

/-- Witness for C3: a successful lookup returns its first result, and a
200 response whose `results` array is empty returns the fixed fallback. -/
theorem get_coordinates_spec_witness :
    get_coordinates (some ⟨200, some [⟨525, -1, "Berlin"⟩]⟩) = (525, -1, "Berlin") ∧
    get_coordinates (some ⟨200, some []⟩) = (40.7128, -74.0060, "New York") := by
  constructor
  · exact (get_coordinates_spec (some ⟨200, some [⟨525, -1, "Berlin"⟩]⟩)).1
      ⟨200, some [⟨525, -1, "Berlin"⟩]⟩ ⟨525, -1, "Berlin"⟩ [] rfl rfl rfl
  · exact (get_coordinates_spec (some ⟨200, some []⟩)).2
      (by intro r hr hs x rest hres; cases hr; simp at hres)

/-- C4: when every per-coin request fails, `fetch_crypto_data` returns the
explicitly empty table and `update_crypto_dashboard` takes the
"No crypto data available" placeholder path (`create_empty_dashboard`),
whose constructor carries no statistics — so no statistics computation,
division by zero or indexing into an empty series can occur. -/
theorem update_crypto_all_fail (coins : List String)
    (resp : String → Option CryptoResponse)
    (h : ∀ coin ∈ coins,
      resp coin = none ∨ ∀ r, resp coin = some r → r.status_code ≠ 200) :
    fetch_crypto_data coins resp = [] ∧
    update_crypto_dashboard coins resp =
      create_empty_dashboard "No crypto data available" := by
  have hempty : fetch_crypto_data coins resp = [] := by
    rw [fetch_crypto_data_eq_flatten, List.flatten_eq_nil_iff]
    intro l hl
    rcases List.mem_map.mp hl with ⟨c, hc, rfl⟩
    exact cryptoRowsFor_of_failure resp c (h c hc)
  refine ⟨hempty, ?_⟩
  simp [update_crypto_dashboard, hempty]

/-- Witness for C4: both coins' requests raise transport errors. -/
theorem update_crypto_all_fail_witness :
    fetch_crypto_data ["bitcoin", "ethereum"] (fun _ => none) = [] ∧
    update_crypto_dashboard ["bitcoin", "ethereum"] (fun _ => none) =
      create_empty_dashboard "No crypto data available" :=
  update_crypto_all_fail ["bitcoin", "ethereum"] (fun _ => none)
    (by intro coin _; exact Or.inl rfl)

/-! ## Claim theorems: weather pipeline -/

/-- A 200 response whose hourly arrays have mismatched lengths: two
timestamps but a single temperature. -/
def wMismatch : WeatherResponse := ⟨200, ["t0", "t1"], [3], [50, 55], [0, 1]⟩

/-- C5 counterexample: the claim says `fetch_weather_data` truncates
mismatched hourly arrays to the shortest array (here one row); the code
instead lets the dataframe constructor's length-mismatch error be caught
by the surrounding handler and returns the empty table — zero rows, not
one. -/
theorem fetch_weather_mismatch_cex :
    fetch_weather_data none (some wMismatch) = [] ∧
    (fetch_weather_data none (some wMismatch)).length ≠
      min (min wMismatch.time.length wMismatch.temperature_2m.length)
        (min wMismatch.relative_humidity_2m.length
          wMismatch.precipitation.length) := by
  have h0 : fetch_weather_data none (some wMismatch) = [] := rfl
  refine ⟨h0, ?_⟩
  rw [h0]
  decide

/-- C5 as amended: a successful (status-200) weather response whose hourly
arrays have mismatched lengths makes `fetch_weather_data` emit zero rows
(the empty table), not a truncated one. -/
theorem fetch_weather_mismatch_empty (geo : Option GeoResponse)
    (r : WeatherResponse) (hs : r.status_code = 200)
    (hm : ¬(r.temperature_2m.length = r.time.length ∧
        r.relative_humidity_2m.length = r.time.length ∧
        r.precipitation.length = r.time.length)) :
    fetch_weather_data geo (some r) = [] := by
  simp [fetch_weather_data, hs, hm]

/-- Witness for the amended C5 at the concrete mismatched response. -/
theorem fetch_weather_mismatch_empty_witness :
    fetch_weather_data none (some wMismatch) = [] :=
  fetch_weather_mismatch_empty none wMismatch rfl (by decide)

/-- C6: a successful weather response whose timestamp array and three
hourly arrays all have length `n` yields exactly `n` rows, the `i`-th row
combining the `i`-th element of each of the four arrays, every row tagged
with the canonical location name resolved by `get_coordinates`. -/
theorem fetch_weather_success (geo : Option GeoResponse) (r : WeatherResponse)
    (n : ℕ) (hs : r.status_code = 200) (ht : r.time.length = n)
    (h1 : r.temperature_2m.length = n) (h2 : r.relative_humidity_2m.length = n)
    (h3 : r.precipitation.length = n) :
    (fetch_weather_data geo (some r)).length = n ∧
    ∀ (i : ℕ) (t : String) (te hu pr : ℚ),
      r.time[i]? = some t → r.temperature_2m[i]? = some te →
      r.relative_humidity_2m[i]? = some hu → r.precipitation[i]? = some pr →
      (fetch_weather_data geo (some r))[i]? =
        some ⟨t, te, hu, pr, (get_coordinates geo).2.2⟩ := by
  have hcond : r.temperature_2m.length = r.time.length ∧
      r.relative_humidity_2m.length = r.time.length ∧
      r.precipitation.length = r.time.length := by omega
  have hfw : fetch_weather_data geo (some r) =
      weatherRows r (get_coordinates geo).2.2 := by
    simp [fetch_weather_data, hs, hcond]
  constructor
  · rw [hfw]
    simp [weatherRows, List.length_zip, ht, h1, h2, h3]
  · intro i t te hu pr htt hte hhu hpr
    have hz : (r.time.zip (r.temperature_2m.zip
        (r.relative_humidity_2m.zip r.precipitation)))[i]? =
        some (t, te, hu, pr) := by
      rw [List.getElem?_zip_eq_some]
      refine ⟨htt, ?_⟩
      rw [List.getElem?_zip_eq_some]
      refine ⟨hte, ?_⟩
      rw [List.getElem?_zip_eq_some]
      exact ⟨hhu, hpr⟩
    rw [hfw]
    simp [weatherRows, List.getElem?_map, hz]

/-- The concrete 24-hour weather response used by the C6 witness. -/
def w24 : WeatherResponse :=
  ⟨200, (List.range 24).map (fun i => "t" ++ toString i),
    (List.range 24).map (fun (i : ℕ) => (i : ℚ)),
    (List.range 24).map (fun (i : ℕ) => (i : ℚ) + 30),
    (List.range 24).map (fun (i : ℕ) => (i : ℚ) / 10)⟩

/-- Witness for C6: 24 synchronized hourly entries produce exactly 24 rows,
and row 3 combines the third element of each array, tagged "New York"
(the resolution fallback, since the geocoding call errors). -/
theorem fetch_weather_success_witness :
    (fetch_weather_data none (some w24)).length = 24 ∧
    (fetch_weather_data none (some w24))[3]? =
      some ⟨"t3", 3, 33, 3 / 10, "New York"⟩ := by
  have h := fetch_weather_success none w24 24 rfl (by simp [w24])
    (by simp [w24]) (by simp [w24]) (by simp [w24])
  refine ⟨h.1, ?_⟩
  have h3 := h.2 3 "t3" 3 33 (3 / 10)
  have e1 : w24.time[3]? = some "t3" := by decide
  have e2 : w24.temperature_2m[3]? = some 3 := by
    show ((List.range 24).map (fun (i : ℕ) => (i : ℚ)))[3]? = some 3
    rw [List.getElem?_map, List.getElem?_range (by norm_num : (3 : ℕ) < 24)]
    norm_num
  have e3 : w24.relative_humidity_2m[3]? = some 33 := by
    show ((List.range 24).map (fun (i : ℕ) => (i : ℚ) + 30))[3]? = some 33
    rw [List.getElem?_map, List.getElem?_range (by norm_num : (3 : ℕ) < 24)]
    norm_num
  have e4 : w24.precipitation[3]? = some (3 / 10) := by
    show ((List.range 24).map (fun (i : ℕ) => (i : ℚ) / 10))[3]? = some (3 / 10)
    rw [List.getElem?_map, List.getElem?_range (by norm_num : (3 : ℕ) < 24)]
    norm_num
  have := h3 e1 e2 e3 e4
  simpa [get_coordinates] using this

/-! ## Claim theorems: percent-change statistics -/

lemma lastTwo_cons (x : ℚ) (l : List ℚ) (h : 2 ≤ l.length) :
    lastTwo (x :: l) = lastTwo l := by
  match l with
  | [] => simp at h
  | [y] => simp at h
  | y :: z :: rest => rfl

lemma lastTwo_append (xs : List ℚ) (a b : ℚ) :
    lastTwo (xs ++ [a, b]) = some (a, b) := by
  induction xs with
  | nil => rfl
  | cons x t ih =>
      rw [List.cons_append, lastTwo_cons x (t ++ [a, b]) (by simp), ih]

/-- C7: the aggregator's whole-range percent change of a non-empty series
is `(value[last] - value[first]) / value[first] * 100`, its last-step
(pairwise) percent change of a series of length at least two is
`(value[last] - value[second_to_last]) / value[second_to_last] * 100`;
in particular `[100, 110]` has whole-range change `+10` and
`[100, 95, 110]` has last-step change `(110 - 95) / 95 * 100 = 300 / 19`. -/
theorem pct_change_spec :
    (∀ (x : ℚ) (xs : List ℚ), wholeRangePctChange (x :: xs) =
      some (((x :: xs).getLast (List.cons_ne_nil x xs) - x) / x * 100)) ∧
    (∀ (xs : List ℚ) (a b : ℚ),
      lastStepPctChange (xs ++ [a, b]) = some ((b - a) / a * 100)) ∧
    wholeRangePctChange [100, 110] = some 10 ∧
    lastStepPctChange [100, 95, 110] = some (300 / 19) := by
  refine ⟨fun x xs => rfl, ?_, ?_, ?_⟩
  · intro xs a b
    simp [lastStepPctChange, lastTwo_append]
  · simp [wholeRangePctChange, List.getLast]
    norm_num
  · simp [lastStepPctChange, lastTwo]
    norm_num

/-! ## Claim theorems: mock stocks -/

lemma cumsumAux_length : ∀ (xs : List ℚ) (acc : ℚ),
    (cumsumAux acc xs).length = xs.length := by
  intro xs
  induction xs with
  | nil => intro acc; rfl
  | cons x t ih => intro acc; simp [cumsumAux, ih]

lemma cumsumAux_getElem? : ∀ (xs : List ℚ) (acc : ℚ) (i : ℕ), i < xs.length →
    (cumsumAux acc xs)[i]? =
      some (acc + Finset.sum (Finset.range (i + 1)) (fun j => xs.getD j 0)) := by
  intro xs
  induction xs with
  | nil => intro acc i hi; simp at hi
  | cons x t ih =>
      intro acc i hi
      cases i with
      | zero => simp [cumsumAux, Finset.sum_range_one]
      | succ k =>
          have hk : k < t.length := by simpa using hi
          rw [show cumsumAux acc (x :: t) = (acc + x) :: cumsumAux (acc + x) t from rfl]
          rw [List.getElem?_cons_succ, ih (acc + x) k hk]
          congr 1
          rw [Finset.sum_range_succ' (fun j => (x :: t).getD j 0) (k + 1)]
          simp only [List.getD_cons_succ, List.getD_cons_zero]
          ring

lemma stockRowsFor_length (rng : ℕ → ℚ) (off : ℕ) (symbol : String) (now : ℤ)
    (days : ℕ) : (stockRowsFor rng off symbol now days).length = days := by
  simp [stockRowsFor, cumsum, cumsumAux_length, List.length_zip]

lemma stockRowsFor_getElem? (rng : ℕ → ℚ) (off : ℕ) (symbol : String) (now : ℤ)
    (days : ℕ) (i : ℕ) (hi : i < days) :
    (stockRowsFor rng off symbol now days)[i]? =
      some ⟨now - ((days - 1 - i : ℕ) : ℤ) * dayMs,
        basePrice symbol +
          Finset.sum (Finset.range (i + 1)) (fun j => rng (off + j) * 5),
        symbol⟩ := by
  have hdates : ((List.range days).map
      (fun k => now - ((days - 1 - k : ℕ) : ℤ) * dayMs))[i]? =
      some (now - ((days - 1 - i : ℕ) : ℤ) * dayMs) := by
    rw [List.getElem?_map, List.getElem?_range hi]
    rfl
  have hlen : ((List.range days).map (fun j => rng (off + j) * 5)).length = days := by
    simp
  have hcs := cumsumAux_getElem?
    ((List.range days).map (fun j => rng (off + j) * 5)) 0 i (by omega)
  have hsum : Finset.sum (Finset.range (i + 1))
      (fun j => ((List.range days).map (fun j => rng (off + j) * 5)).getD j 0) =
      Finset.sum (Finset.range (i + 1)) (fun j => rng (off + j) * 5) := by
    refine Finset.sum_congr rfl (fun j hj => ?_)
    have hjd : j < days := by
      have := Finset.mem_range.mp hj
      omega
    rw [List.getD_eq_getElem?_getD, List.getElem?_map, List.getElem?_range hjd]
    rfl
  have hprices : ((cumsum ((List.range days).map (fun j => rng (off + j) * 5))).map
      (fun c => basePrice symbol + c))[i]? =
      some (basePrice symbol +
        Finset.sum (Finset.range (i + 1)) (fun j => rng (off + j) * 5)) := by
    rw [List.getElem?_map]
    rw [show cumsum ((List.range days).map (fun j => rng (off + j) * 5)) =
      cumsumAux 0 ((List.range days).map (fun j => rng (off + j) * 5)) from rfl]
    rw [hcs, hsum]
    simp
  have hrows : stockRowsFor rng off symbol now days =
      ((((List.range days).map
        (fun k => now - ((days - 1 - k : ℕ) : ℤ) * dayMs)).zip
        ((cumsum ((List.range days).map (fun j => rng (off + j) * 5))).map
          (fun c => basePrice symbol + c))).map
        (fun p => StockRow.mk p.1 p.2 symbol)) := rfl
  have hz : (((List.range days).map
      (fun k => now - ((days - 1 - k : ℕ) : ℤ) * dayMs)).zip
      ((cumsum ((List.range days).map (fun j => rng (off + j) * 5))).map
        (fun c => basePrice symbol + c)))[i]? =
      some (now - ((days - 1 - i : ℕ) : ℤ) * dayMs,
        basePrice symbol +
          Finset.sum (Finset.range (i + 1)) (fun j => rng (off + j) * 5)) := by
    rw [List.getElem?_zip_eq_some]
    exact ⟨hdates, hprices⟩
  rw [hrows, List.getElem?_map, hz]
  rfl

/-- C8: for every day-count `days ≥ 1` and every symbol (at any position
`off` of the global draw stream), the generated rows are exactly `days`
many; the `i`-th row's date is `now` minus `days - 1 - i` whole days (so
the dates are consecutive calendar days with a one-day step, the last one
being `now`), and its price is the symbol's base price plus the cumulative
sum of the first `i + 1` pseudo-random draws, each scaled by 5; and the
table of `generate_mock_stock_data` for a single symbol is exactly these
rows. -/
theorem generate_mock_stock_spec (rng : ℕ → ℚ) (now : ℤ) (symbol : String)
    (off days : ℕ) (h : 1 ≤ days) :
    (stockRowsFor rng off symbol now days).length = days ∧
    (∀ i, i < days → (stockRowsFor rng off symbol now days)[i]? =
      some ⟨now - ((days - 1 - i : ℕ) : ℤ) * dayMs,
        basePrice symbol +
          Finset.sum (Finset.range (i + 1)) (fun j => rng (off + j) * 5),
        symbol⟩) ∧
    (∀ i r1 r2, (stockRowsFor rng off symbol now days)[i]? = some r1 →
      (stockRowsFor rng off symbol now days)[i + 1]? = some r2 →
      r2.date - r1.date = dayMs) ∧
    (stockRowsFor rng off symbol now days).getLast?.map StockRow.date =
      some now ∧
    generate_mock_stock_data [symbol] days now rng =
      stockRowsFor rng 0 symbol now days := by
  refine ⟨stockRowsFor_length rng off symbol now days,
    fun i hi => stockRowsFor_getElem? rng off symbol now days i hi, ?_, ?_, ?_⟩
  · intro i r1 r2 h1 h2
    have hi1 : i + 1 < days := by
      rcases List.getElem?_eq_some.mp h2 with ⟨hlt, _⟩
      rwa [stockRowsFor_length] at hlt
    have hi : i < days := by omega
    rw [stockRowsFor_getElem? rng off symbol now days i hi] at h1
    rw [stockRowsFor_getElem? rng off symbol now days (i + 1) hi1] at h2
    cases h1
    cases h2
    show (now - ((days - 1 - (i + 1) : ℕ) : ℤ) * dayMs) -
      (now - ((days - 1 - i : ℕ) : ℤ) * dayMs) = dayMs
    have heq : (days - 1 - i : ℕ) = (days - 1 - (i + 1) : ℕ) + 1 := by omega
    rw [heq]
    push_cast
    ring
  · rw [List.getLast?_eq_getElem?, stockRowsFor_length]
    have hd : days - 1 < days := by omega
    rw [stockRowsFor_getElem? rng off symbol now days (days - 1) hd]
    simp [Nat.sub_self]
  · show genStocksAux rng now days 0 [symbol] = stockRowsFor rng 0 symbol now days
    show stockRowsFor rng 0 symbol now days ++ genStocksAux rng now days days [] =
      stockRowsFor rng 0 symbol now days
    simp [genStocksAux]

/-- Witness for C8 at `days = 30`: exactly 30 rows, the last dated `now`. -/
theorem generate_mock_stock_spec_witness :
    (stockRowsFor (fun _ => (0 : ℚ)) 0 "AAPL" 0 30).length = 30 ∧
    (stockRowsFor (fun _ => (0 : ℚ)) 0 "AAPL" 0 30).getLast?.map StockRow.date =
      some 0 := by
  have h := generate_mock_stock_spec (fun _ => (0 : ℚ)) 0 "AAPL" 0 30 (by decide)
  exact ⟨h.1, h.2.2.2.1⟩

lemma stockRowsFor_congr (rng1 rng2 : ℕ → ℚ) (off : ℕ) (s : String) (now : ℤ)
    (days : ℕ) (h : ∀ j, j < days → rng1 (off + j) = rng2 (off + j)) :
    stockRowsFor rng1 off s now days = stockRowsFor rng2 off s now days := by
  have hsteps : ((List.range days).map (fun j => rng1 (off + j) * 5)) =
      ((List.range days).map (fun j => rng2 (off + j) * 5)) :=
    List.map_congr_left (fun j hj => by rw [h j (List.mem_range.mp hj)])
  simp only [stockRowsFor, hsteps]

lemma genStocksAux_congr (rng1 rng2 : ℕ → ℚ) (now : ℤ) (days : ℕ) :
    ∀ (symbols : List String) (off : ℕ),
      (∀ i, off ≤ i → i < off + symbols.length * days → rng1 i = rng2 i) →
      genStocksAux rng1 now days off symbols =
        genStocksAux rng2 now days off symbols := by
  intro symbols
  induction symbols with
  | nil => intro off _; rfl
  | cons s rest ih =>
      intro off h
      have hmul : (rest.length + 1) * days = rest.length * days + days := by ring
      show stockRowsFor rng1 off s now days ++
          genStocksAux rng1 now days (off + days) rest =
        stockRowsFor rng2 off s now days ++
          genStocksAux rng2 now days (off + days) rest
      rw [stockRowsFor_congr rng1 rng2 off s now days
        (fun j hj => h (off + j) (by omega) (by simp only [List.length_cons]; omega))]
      rw [ih (off + days)
        (fun i hlo hhi => h i (by omega) (by simp only [List.length_cons]; omega))]

/-- C9: the mock stock generator is purely deterministic in its inputs and
its pseudo-random draw stream — two runs whose streams agree on the
`symbols.length * days` draws the generator consumes (in particular, two
runs seeded identically) produce identical tables. -/
theorem generate_mock_stock_deterministic (symbols : List String) (days : ℕ)
    (now : ℤ) (rng1 rng2 : ℕ → ℚ)
    (h : ∀ i, i < symbols.length * days → rng1 i = rng2 i) :
    generate_mock_stock_data symbols days now rng1 =
      generate_mock_stock_data symbols days now rng2 :=
  genStocksAux_congr rng1 rng2 now days symbols 0
    (fun i _ hi => h i (by simpa using hi))

/-- Witness for C9: two streams that agree on the two consumed draws give
identical single-symbol tables even though they differ from index 2 on. -/
theorem generate_mock_stock_deterministic_witness :
    generate_mock_stock_data ["A"] 2 0 (fun i => (i : ℚ)) =
      generate_mock_stock_data ["A"] 2 0
        (fun i => if i < 2 then (i : ℚ) else 99) := by
  apply generate_mock_stock_deterministic
  intro i hi
  have h2 : i < 2 := by simpa using hi
  simp [h2]

/-! ## Claim theorems: dispatch -/

/-- C10: every data-type selector value other than the exact strings
`'crypto'` and `'weather'` — including values outside the three-member
enumeration — dispatches to the stocks pipeline (the `else` branch), and
only those two exact strings select the crypto and weather pipelines. -/
theorem update_dashboard_dispatch (s : String) (h1 : s ≠ "crypto")
    (h2 : s ≠ "weather") :
    update_dashboard s = Pipeline.stocks ∧
    update_dashboard "crypto" = Pipeline.crypto ∧
    update_dashboard "weather" = Pipeline.weather := by
  refine ⟨?_, rfl, rfl⟩
  simp [update_dashboard, h1, h2]

/-- Witness for C10: the out-of-enumeration value `"bogus"` selects the
stocks pipeline. -/
theorem update_dashboard_dispatch_witness :
    update_dashboard "bogus" = Pipeline.stocks :=
  (update_dashboard_dispatch "bogus" (by decide) (by decide)).1

end Dashboard
